import Mathlib

set_option maxRecDepth 8000
set_option maxHeartbeats 1000000

/-!
Verification development for the retail-profile-simulator repository.

The embedding models, from the source:
 - `src/database/db_control.py`: the relational state, `insert_profile` run on an
   autocommit connection, the `generate_customer_json` PL/pgSQL trigger function
   (JSON document assembly, `customer_json_profiles` insert, `pg_notify`), and the
   `start_listening` drain loop;
 - `src/transform/transform.py`: `save_json_to_file`;
 - `main.py`: `generate_and_store_profiles`.

JSON text is modelled down to characters: a serializer reproducing Python's
`json.dump(..., indent=2, ensure_ascii=False)` output and PostgreSQL's
`jsonb::text` output (both are token streams differing only in inter-token
whitespace), and a decoder modelling `json.loads`.
-/

namespace RetailSim

/-- JSON whitespace characters (space, newline, tab, carriage return). -/
def isWsChar (c : Char) : Bool :=
  c.toNat = 32 || c.toNat = 10 || c.toNat = 9 || c.toNat = 13

/-- ASCII decimal digit test (the only digits JSON number tokens may use). -/
def isDigitChar (c : Char) : Bool :=
  48 ≤ c.toNat && c.toNat ≤ 57

theorem isDigitChar_bounds {c : Char} (h : isDigitChar c = true) :
    48 ≤ c.toNat ∧ c.toNat ≤ 57 := by
  simpa [isDigitChar] using h

/-- Skip leading whitespace, as a JSON decoder does between tokens. -/
def skipWs : List Char → List Char
  | [] => []
  | c :: cs => if isWsChar c then skipWs cs else c :: cs

theorem skipWs_nil : skipWs [] = [] := rfl

theorem skipWs_cons_not_ws {c : Char} (h : isWsChar c = false) (cs : List Char) :
    skipWs (c :: cs) = c :: cs := by
  simp [skipWs, h]

theorem skipWs_append_ws {ws : List Char} (h : ∀ c ∈ ws, isWsChar c = true)
    (cs : List Char) : skipWs (ws ++ cs) = skipWs cs := by
  induction ws with
  | nil => rfl
  | cons a as ih =>
      have ha : isWsChar a = true := h a (by simp)
      have has : ∀ c ∈ as, isWsChar c = true := fun c hc => h c (by simp [hc])
      simp [skipWs, ha, ih has]

/-- The decimal digit character for `d < 10`. -/
def digitChar (d : Nat) : Char := Char.ofNat (48 + d)

theorem digitChar_isDigit {d : Nat} (h : d < 10) : isDigitChar (digitChar d) = true := by
  interval_cases d <;> decide

theorem digitChar_toNat {d : Nat} (h : d < 10) : (digitChar d).toNat = 48 + d := by
  interval_cases d <;> decide

/-- Decimal digits of a natural number, most significant first. -/
def natChars (n : Nat) : List Char :=
  if _ : n < 10 then [digitChar n]
  else natChars (n / 10) ++ [digitChar (n % 10)]
termination_by n
decreasing_by exact Nat.div_lt_self (by omega) (by omega)

theorem natChars_ne_nil (n : Nat) : natChars n ≠ [] := by
  rw [natChars]
  split <;> simp

theorem natChars_all_digits (n : Nat) : ∀ c ∈ natChars n, isDigitChar c = true := by
  induction n using Nat.strong_induction_on with
  | _ n ih =>
      intro c hc
      rw [natChars] at hc
      split at hc
      · simp at hc
        subst hc
        exact digitChar_isDigit (by omega)
      · rcases List.mem_append.mp hc with h1 | h2
        · exact ih (n / 10) (Nat.div_lt_self (by omega) (by omega)) c h1
        · simp at h2
          subst h2
          exact digitChar_isDigit (Nat.mod_lt _ (by omega))

/-- Digits of an integer, with a leading minus sign for negatives. -/
def intChars (i : Int) : List Char :=
  if i < 0 then Char.ofNat 45 :: natChars (-i).toNat else natChars i.toNat

/-- Greedy decimal-digit scanner used by the number token reader. -/
def readDigits : List Char → Nat → Nat × List Char
  | [], acc => (acc, [])
  | c :: cs, acc =>
      if isDigitChar c then readDigits cs (10 * acc + (c.toNat - 48)) else (acc, c :: cs)

theorem readDigits_natChars (n : Nat) : ∀ (tail : List Char) (acc : Nat),
    readDigits (natChars n ++ tail) acc =
      readDigits tail (acc * 10 ^ (natChars n).length + n) := by
  induction n using Nat.strong_induction_on with
  | _ n ih =>
      intro tail acc
      by_cases h : n < 10
      · rw [natChars]
        simp only [h, dif_pos, List.singleton_append, readDigits,
          digitChar_isDigit h, if_pos, digitChar_toNat h, List.length_singleton]
        have : 10 * acc + (48 + n - 48) = acc * 10 ^ 1 + n := by
          simp [pow_one]; omega
        rw [this]
      · rw [natChars]
        simp only [h, dif_neg, not_false_iff]
        rw [List.append_assoc, ih (n / 10) (Nat.div_lt_self (by omega) (by omega))]
        have hm : n % 10 < 10 := Nat.mod_lt _ (by omega)
        simp only [List.singleton_append, readDigits, digitChar_isDigit hm, if_pos,
          digitChar_toNat hm, List.length_append, List.length_singleton]
        have : 10 * (acc * 10 ^ (natChars (n / 10)).length + n / 10) + (48 + n % 10 - 48) =
            acc * 10 ^ ((natChars (n / 10)).length + 1) + n := by
          rw [pow_succ]
          have hh : 10 * (n / 10) + n % 10 = n := by omega
          ring_nf
          omega
        rw [this]
        simp

/-- Numeric value of an all-digit character list (leftmost digit most significant). -/
def digitsVal (cs : List Char) : Nat :=
  cs.foldl (fun acc c => 10 * acc + (c.toNat - 48)) 0

/-- Parse an all-digit character list to a natural number; `none` on empty or
non-digit input. -/
def parseNatChars (cs : List Char) : Option Nat :=
  if cs.all isDigitChar && !cs.isEmpty then some (digitsVal cs) else none

/-- PostgreSQL integer-text cast (`CAST(text AS INTEGER/BIGINT)`): optional sign,
then digits; anything else raises. Modelled on digits with optional sign. -/
def parseBigInt (s : String) : Option Int :=
  match s.data with
  | c :: rest =>
      if c = Char.ofNat 45 then
        if rest.all isDigitChar && !rest.isEmpty then some (-(digitsVal rest : Int)) else none
      else if c = Char.ofNat 43 then
        if rest.all isDigitChar && !rest.isEmpty then some ((digitsVal rest : Int)) else none
      else if (c :: rest).all isDigitChar then some ((digitsVal (c :: rest) : Int))
      else none
  | [] => none

/-- A calendar date, as stored in a PostgreSQL `DATE` column. -/
structure Date where
  year : Int
  month : Nat
  day : Nat
deriving DecidableEq, Repr

/-- Gregorian leap-year rule (PostgreSQL / proleptic Gregorian). -/
def isLeap (y : Int) : Bool :=
  y % 4 == 0 && (y % 100 != 0 || y % 400 == 0)

/-- Days in a month (PostgreSQL `day_tab`). -/
def daysInMonth (y : Int) (m : Nat) : Nat :=
  match m with
  | 1 => 31
  | 2 => if isLeap y then 29 else 28
  | 3 => 31
  | 4 => 30
  | 5 => 31
  | 6 => 30
  | 7 => 31
  | 8 => 31
  | 9 => 30
  | 10 => 31
  | 11 => 30
  | 12 => 31
  | _ => 30

/-- Split a character list at every dash (the separator of `YYYY-MM-DD` input). -/
def splitDashes : List Char → List (List Char)
  | [] => [[]]
  | c :: cs =>
      if c = Char.ofNat 45 then [] :: splitDashes cs
      else
        match splitDashes cs with
        | g :: gs => (c :: g) :: gs
        | [] => [[c]]

/-- PostgreSQL `DATE` input for the `YYYY-MM-DD` form the generator produces:
three dash-separated numeric fields, validated as a real calendar date. -/
def parseDate (s : String) : Option Date :=
  match splitDashes s.data with
  | [ys, ms, ds] =>
      match parseNatChars ys, parseNatChars ms, parseNatChars ds with
      | some y, some m, some d =>
          if 1 ≤ m && m ≤ 12 && 1 ≤ d && d ≤ daysInMonth (y : Int) m then
            some ⟨(y : Int), m, d⟩
          else none
      | _, _, _ => none
  | _ => none

/-- The day-borrow loop of PostgreSQL `timestamp_age`: while the day difference is
negative, add the length of the birth date's month and take one month off. -/
def borrowDays (dim : Nat) (dd dm : Int) : Int × Int :=
  if _ : dd < 0 ∧ 0 < dim then borrowDays dim (dd + dim) (dm - 1) else (dd, dm)
termination_by (-dd).toNat
decreasing_by omega

/-- The month-borrow loop of PostgreSQL `timestamp_age`: while the month difference
is negative, add twelve months and take one year off. -/
def borrowMonths (dm dy : Int) : Int × Int :=
  if _ : dm < 0 then borrowMonths (dm + 12) (dy - 1) else (dm, dy)
termination_by (-dm).toNat
decreasing_by omega

/-- `EXTRACT(YEAR FROM age(dob))` evaluated at current date `cur`: the years
component of PostgreSQL's symbolic date difference `age(cur, dob)`. -/
def ageYears (cur dob : Date) : Int :=
  let p := borrowDays (daysInMonth dob.year dob.month)
    ((cur.day : Int) - (dob.day : Int)) ((cur.month : Int) - (dob.month : Int))
  (borrowMonths p.2 (cur.year - dob.year)).2

/-- Two-digit zero-padded field, as `to_char` renders `MM` and `DD`. -/
def pad2 (n : Nat) : List Char :=
  if n < 10 then digitChar 0 :: natChars n else natChars n

/-- Four-digit zero-padded field, as `to_char` renders `YYYY`. -/
def pad4 (n : Nat) : List Char :=
  List.replicate (4 - (natChars n).length) (digitChar 0) ++ natChars n

/-- `to_char(date, 'MM-DD')`. -/
def toCharMMDD (d : Date) : String :=
  ⟨pad2 d.month ++ Char.ofNat 45 :: pad2 d.day⟩

/-- `to_char(date, 'YYYY')`. -/
def toCharYYYY (d : Date) : String :=
  ⟨pad4 d.year.toNat⟩

/-- `to_jsonb` text form of a `DATE` value (ISO `YYYY-MM-DD`). -/
def dateISO (d : Date) : String :=
  ⟨pad4 d.year.toNat ++ Char.ofNat 45 :: (pad2 d.month ++ Char.ofNat 45 :: pad2 d.day)⟩

/-! ## JSON values

The document fragment this system produces: object/array nesting over strings,
integers (ages, years, ids, points — no fractional numbers appear), booleans
and null. -/

inductive JValue where
  | null
  | bool (b : Bool)
  | num (n : Int)
  | str (s : String)
  | arr (elems : List JValue)
  | obj (fields : List (String × JValue))
deriving Repr

/-- The double-quote character. -/
def quoteChar : Char := Char.ofNat 34

/-- The backslash character. -/
def backslashChar : Char := Char.ofNat 92

/-- Lowercase hexadecimal digit, as Python's `\uXXXX` escapes use. -/
def hexDigitChar (n : Nat) : Char :=
  if n < 10 then digitChar n else Char.ofNat (87 + n)

/-- Python `json` string-character encoding with `ensure_ascii=False`: escape the
quote, the backslash and control characters (`\b \t \n \f \r` short, `\u00XX`
otherwise); every other character — non-ASCII included — is written literally. -/
def escChar (c : Char) : List Char :=
  if c = quoteChar then [backslashChar, quoteChar]
  else if c = backslashChar then [backslashChar, backslashChar]
  else if c.toNat = 8 then [backslashChar, 'b']
  else if c.toNat = 9 then [backslashChar, 't']
  else if c.toNat = 10 then [backslashChar, 'n']
  else if c.toNat = 12 then [backslashChar, 'f']
  else if c.toNat = 13 then [backslashChar, 'r']
  else if c.toNat < 32 then
    [backslashChar, 'u', digitChar 0, digitChar 0,
      hexDigitChar (c.toNat / 16), hexDigitChar (c.toNat % 16)]
  else [c]

/-- Serialized JSON string token. -/
def serStr (s : String) : List Char :=
  quoteChar :: (s.data.flatMap escChar ++ [quoteChar])

/-- Inter-token whitespace of a JSON text layout: what the writer emits after an
opening bracket, after a comma, and before a closing bracket, per nesting level. -/
structure Layout where
  wsOpen : Nat → List Char
  wsSep : Nat → List Char
  wsClose : Nat → List Char

/-- `json.dump(..., indent=2)`: newline plus two-space indentation after every
opening bracket and item separator, closing brackets on their own line. -/
def pythonLayout : Layout where
  wsOpen lvl := Char.ofNat 10 :: List.replicate (2 * (lvl + 1)) (Char.ofNat 32)
  wsSep lvl := Char.ofNat 10 :: List.replicate (2 * (lvl + 1)) (Char.ofNat 32)
  wsClose lvl := Char.ofNat 10 :: List.replicate (2 * lvl) (Char.ofNat 32)

/-- PostgreSQL `jsonb::text`: a space after each comma, none elsewhere. -/
def jsonbLayout : Layout where
  wsOpen _ := []
  wsSep _ := [Char.ofNat 32]
  wsClose _ := []

mutual

/-- Serialize a JSON value (key separator is `": "` in both layouts modelled). -/
def serVal (st : Layout) (lvl : Nat) (v : JValue) : List Char :=
  match v with
  | .null => 'n' :: ['u', 'l', 'l']
  | .bool true => 't' :: ['r', 'u', 'e']
  | .bool false => 'f' :: ['a', 'l', 's', 'e']
  | .num n => intChars n
  | .str s => serStr s
  | .arr [] => ['[', ']']
  | .arr (x :: xs) =>
      '[' :: (st.wsOpen lvl ++ serVal st (lvl + 1) x ++ serItems st lvl xs ++
        st.wsClose lvl ++ [']'])
  | .obj [] => ['{', '}']
  | .obj (kv :: fs) =>
      '{' :: (st.wsOpen lvl ++ serMember st lvl kv ++ serMembers st lvl fs ++
        st.wsClose lvl ++ ['}'])
termination_by sizeOf v

/-- Serialize the second and later array items, each preceded by a comma. -/
def serItems (st : Layout) (lvl : Nat) (xs : List JValue) : List Char :=
  match xs with
  | [] => []
  | x :: rest => ',' :: (st.wsSep lvl ++ serVal st (lvl + 1) x ++ serItems st lvl rest)
termination_by sizeOf xs

/-- Serialize one object member: quoted key, `": "`, value. -/
def serMember (st : Layout) (lvl : Nat) (kv : String × JValue) : List Char :=
  match kv with
  | (k, v) => serStr k ++ ':' :: Char.ofNat 32 :: serVal st (lvl + 1) v
termination_by sizeOf kv

/-- Serialize the second and later object members, each preceded by a comma. -/
def serMembers (st : Layout) (lvl : Nat) (fs : List (String × JValue)) : List Char :=
  match fs with
  | [] => []
  | kv :: rest => ',' :: (st.wsSep lvl ++ serMember st lvl kv ++ serMembers st lvl rest)
termination_by sizeOf fs

end

mutual

/-- Recursion budget sufficient for the decoder on this value (one unit per
decoder-to-decoder call along any path). -/
def jfuel (v : JValue) : Nat :=
  match v with
  | .null | .bool _ | .num _ | .str _ => 1
  | .arr xs => 1 + itemsFuel xs
  | .obj fs => 1 + membersFuel fs
termination_by sizeOf v

def itemsFuel (xs : List JValue) : Nat :=
  match xs with
  | [] => 0
  | x :: rest => 1 + jfuel x + itemsFuel rest
termination_by sizeOf xs

def membersFuel (fs : List (String × JValue)) : Nat :=
  match fs with
  | [] => 0
  | (_, v) :: rest => 1 + jfuel v + membersFuel rest
termination_by sizeOf fs

end

/-- Hexadecimal digit value, as a JSON decoder reads `\uXXXX` escapes. -/
def hexVal (c : Char) : Option Nat :=
  if isDigitChar c then some (c.toNat - 48)
  else if 97 ≤ c.toNat && c.toNat ≤ 102 then some (c.toNat - 87)
  else if 65 ≤ c.toNat && c.toNat ≤ 70 then some (c.toNat - 55)
  else none

/-- Single-character JSON escapes. -/
def unescapeChar (c : Char) : Option Char :=
  if c = quoteChar then some quoteChar
  else if c = backslashChar then some backslashChar
  else if c = '/' then some '/'
  else if c = 'b' then some (Char.ofNat 8)
  else if c = 'f' then some (Char.ofNat 12)
  else if c = 'n' then some (Char.ofNat 10)
  else if c = 'r' then some (Char.ofNat 13)
  else if c = 't' then some (Char.ofNat 9)
  else none

/-- Decode a string-token body (after the opening quote) up to the closing
quote; returns the decoded characters and the remaining input. -/
def parseStrBody : List Char → Option (List Char × List Char)
  | [] => none
  | c :: cs =>
      if c = quoteChar then some ([], cs)
      else if c = backslashChar then
        match cs with
        | [] => none
        | e :: cs2 =>
            if e = 'u' then
              match cs2 with
              | a :: b :: c3 :: d :: cs3 =>
                  match hexVal a, hexVal b, hexVal c3, hexVal d with
                  | some ha, some hb, some hc, some hd =>
                      match parseStrBody cs3 with
                      | some (l, r) =>
                          some (Char.ofNat (((ha * 16 + hb) * 16 + hc) * 16 + hd) :: l, r)
                      | none => none
                  | _, _, _, _ => none
              | _ => none
            else
              match unescapeChar e with
              | some u =>
                  match parseStrBody cs2 with
                  | some (l, r) => some (u :: l, r)
                  | none => none
              | none => none
      else
        match parseStrBody cs with
        | some (l, r) => some (c :: l, r)
        | none => none

mutual

/-- Decode one JSON value (the `json.loads` grammar restricted to the integer
numbers this system emits), with an explicit recursion budget. -/
def parseVal : Nat → List Char → Option (JValue × List Char)
  | 0, _ => none
  | f + 1, cs =>
      match skipWs cs with
      | [] => none
      | c :: cs1 =>
          if c = '{' then
            match skipWs cs1 with
            | [] => none
            | c2 :: cs2 =>
                if c2 = '}' then some (.obj [], cs2)
                else
                  match parseMembers f (c2 :: cs2) with
                  | some (fs, r) => some (.obj fs, r)
                  | none => none
          else if c = '[' then
            match skipWs cs1 with
            | [] => none
            | c2 :: cs2 =>
                if c2 = ']' then some (.arr [], cs2)
                else
                  match parseItems f (c2 :: cs2) with
                  | some (xs, r) => some (.arr xs, r)
                  | none => none
          else if c = quoteChar then
            match parseStrBody cs1 with
            | some (l, r) => some (.str ⟨l⟩, r)
            | none => none
          else if c = 't' then
            match cs1 with
            | 'r' :: 'u' :: 'e' :: r => some (.bool true, r)
            | _ => none
          else if c = 'f' then
            match cs1 with
            | 'a' :: 'l' :: 's' :: 'e' :: r => some (.bool false, r)
            | _ => none
          else if c = 'n' then
            match cs1 with
            | 'u' :: 'l' :: 'l' :: r => some (.null, r)
            | _ => none
          else if c = Char.ofNat 45 then
            match cs1 with
            | [] => none
            | d :: cs2 =>
                if isDigitChar d then
                  let p := readDigits (d :: cs2) 0
                  some (.num (-(p.1 : Int)), p.2)
                else none
          else if isDigitChar c then
            let p := readDigits (c :: cs1) 0
            some (.num (p.1 : Int), p.2)
          else none

/-- Decode the members of a nonempty object, the input positioned at the first
key (possibly after whitespace), up to the closing brace. -/
def parseMembers : Nat → List Char → Option (List (String × JValue) × List Char)
  | 0, _ => none
  | f + 1, cs =>
      match skipWs cs with
      | [] => none
      | c :: cs1 =>
          if c = quoteChar then
            match parseStrBody cs1 with
            | some (key, cs2) =>
                match skipWs cs2 with
                | [] => none
                | c3 :: cs3 =>
                    if c3 = ':' then
                      match parseVal f cs3 with
                      | some (v, cs4) =>
                          match skipWs cs4 with
                          | [] => none
                          | c5 :: cs5 =>
                              if c5 = ',' then
                                match parseMembers f cs5 with
                                | some (fs, r) => some ((⟨key⟩, v) :: fs, r)
                                | none => none
                              else if c5 = '}' then some ([(⟨key⟩, v)], cs5)
                              else none
                      | none => none
                    else none
            | none => none
          else none

/-- Decode the items of a nonempty array up to the closing bracket. -/
def parseItems : Nat → List Char → Option (List JValue × List Char)
  | 0, _ => none
  | f + 1, cs =>
      match parseVal f cs with
      | some (v, r) =>
          match skipWs r with
          | [] => none
          | c :: r2 =>
              if c = ',' then
                match parseItems f r2 with
                | some (vs, r3) => some (v :: vs, r3)
                | none => none
              else if c = ']' then some ([v], r2)
              else none
      | none => none

end

/-- `json.loads`: decode one value, require only whitespace after it. -/
def loads (s : String) : Option JValue :=
  match parseVal (s.data.length + 1) s.data with
  | some (v, rest) => if skipWs rest = [] then some v else none
  | none => none

/-! ## Decoder correctness on serializer output -/

theorem isDigitChar_not_ws {c : Char} (h : isDigitChar c = true) : isWsChar c = false := by
  obtain ⟨h1, h2⟩ := isDigitChar_bounds h
  simp [isWsChar]
  omega

theorem ne_of_digit {c d : Char} (hc : isDigitChar c = true)
    (hd : isDigitChar d = false) : c ≠ d := by
  intro he
  subst he
  rw [hc] at hd
  cases hd

theorem ws_not_digit {c : Char} (h : isWsChar c = true) : isDigitChar c = false := by
  simp [isWsChar] at h
  simp [isDigitChar]
  omega

/-- Input whose head the greedy number reader will not consume. -/
def delimOk : List Char → Bool
  | [] => true
  | c :: _ => !(isDigitChar c)

theorem delimOk_cons {c : Char} (h : isDigitChar c = false) (cs : List Char) :
    delimOk (c :: cs) = true := by
  simp [delimOk, h]

theorem readDigits_stop {cs : List Char} (h : delimOk cs = true) (acc : Nat) :
    readDigits cs acc = (acc, cs) := by
  cases cs with
  | nil => rfl
  | cons c cs' =>
      simp [delimOk] at h
      simp [readDigits, h]

theorem delimOk_append_ws {ws : List Char} (h : ∀ c ∈ ws, isWsChar c = true)
    {cs : List Char} (hcs : delimOk cs = true) : delimOk (ws ++ cs) = true := by
  cases ws with
  | nil => simpa using hcs
  | cons a as => exact delimOk_cons (ws_not_digit (h a (by simp))) _

/-- A layout's inter-token strings are pure whitespace. -/
def LayoutOk (st : Layout) : Prop :=
  ∀ lvl, (∀ c ∈ st.wsOpen lvl, isWsChar c = true) ∧
    (∀ c ∈ st.wsSep lvl, isWsChar c = true) ∧
    (∀ c ∈ st.wsClose lvl, isWsChar c = true)

theorem pythonLayout_ok : LayoutOk pythonLayout := by
  intro lvl
  refine ⟨?_, ?_, ?_⟩ <;> intro c hc <;>
    simp [pythonLayout, List.mem_replicate] at hc <;>
    rcases hc with rfl | ⟨-, rfl⟩ <;> decide

theorem jsonbLayout_ok : LayoutOk jsonbLayout := by
  intro lvl
  refine ⟨?_, ?_, ?_⟩ <;> intro c hc <;> simp [jsonbLayout] at hc
  subst hc
  decide

theorem hexVal_hexDigitChar {x : Nat} (h : x < 16) : hexVal (hexDigitChar x) = some x := by
  interval_cases x <;> decide

theorem parseStrBody_escChar (c : Char) (tail : List Char) :
    parseStrBody (escChar c ++ tail) =
      (parseStrBody tail).map (fun p => (c :: p.1, p.2)) := by
  have hv0 : hexVal (digitChar 0) = some 0 := by decide
  by_cases h1 : c = quoteChar
  · subst h1
    show parseStrBody (backslashChar :: quoteChar :: tail) = _
    rw [parseStrBody.eq_def]
    cases h : parseStrBody tail <;> simp +decide [unescapeChar, h]
  by_cases h2 : c = backslashChar
  · subst h2
    show parseStrBody (backslashChar :: backslashChar :: tail) = _
    rw [parseStrBody.eq_def]
    cases h : parseStrBody tail <;> simp +decide [unescapeChar, h]
  by_cases h3 : c.toNat = 8
  · have hc : c = Char.ofNat 8 := by rw [← Char.ofNat_toNat c, h3]
    subst hc
    show parseStrBody (backslashChar :: 'b' :: tail) = _
    rw [parseStrBody.eq_def]
    cases h : parseStrBody tail <;> simp +decide [unescapeChar, h]
  by_cases h4 : c.toNat = 9
  · have hc : c = Char.ofNat 9 := by rw [← Char.ofNat_toNat c, h4]
    subst hc
    show parseStrBody (backslashChar :: 't' :: tail) = _
    rw [parseStrBody.eq_def]
    cases h : parseStrBody tail <;> simp +decide [unescapeChar, h]
  by_cases h5 : c.toNat = 10
  · have hc : c = Char.ofNat 10 := by rw [← Char.ofNat_toNat c, h5]
    subst hc
    show parseStrBody (backslashChar :: 'n' :: tail) = _
    rw [parseStrBody.eq_def]
    cases h : parseStrBody tail <;> simp +decide [unescapeChar, h]
  by_cases h6 : c.toNat = 12
  · have hc : c = Char.ofNat 12 := by rw [← Char.ofNat_toNat c, h6]
    subst hc
    show parseStrBody (backslashChar :: 'f' :: tail) = _
    rw [parseStrBody.eq_def]
    cases h : parseStrBody tail <;> simp +decide [unescapeChar, h]
  by_cases h7 : c.toNat = 13
  · have hc : c = Char.ofNat 13 := by rw [← Char.ofNat_toNat c, h7]
    subst hc
    show parseStrBody (backslashChar :: 'r' :: tail) = _
    rw [parseStrBody.eq_def]
    cases h : parseStrBody tail <;> simp +decide [unescapeChar, h]
  by_cases h8 : c.toNat < 32
  · -- the `\u00XX` escape
    have e1 : escChar c = [backslashChar, 'u', digitChar 0, digitChar 0,
        hexDigitChar (c.toNat / 16), hexDigitChar (c.toNat % 16)] := by
      simp [escChar, h1, h2, h3, h4, h5, h6, h7, h8]
    have hv1 : hexVal (hexDigitChar (c.toNat / 16)) = some (c.toNat / 16) :=
      hexVal_hexDigitChar (by omega)
    have hv2 : hexVal (hexDigitChar (c.toNat % 16)) = some (c.toNat % 16) :=
      hexVal_hexDigitChar (by omega)
    cases h : parseStrBody tail with
    | none =>
        rw [e1, parseStrBody.eq_def]
        simp +decide [hv0, hv1, hv2, h]
    | some p =>
        rw [e1, parseStrBody.eq_def]
        simp +decide [hv0, hv1, hv2, h]
        have hx : c.toNat / 16 * 16 + c.toNat % 16 = c.toNat := by omega
        rw [hx, Char.ofNat_toNat]
  · -- literal character (all non-ASCII falls here)
    have e1 : escChar c = [c] := by
      simp [escChar, h1, h2, h3, h4, h5, h6, h7, h8]
    rw [e1]
    show parseStrBody (c :: tail) = _
    rw [parseStrBody.eq_def]
    cases h : parseStrBody tail <;> simp [h1, h2, h]

theorem parseStrBody_ser (l : List Char) (tail : List Char) :
    parseStrBody (l.flatMap escChar ++ (quoteChar :: tail)) = some (l, tail) := by
  induction l with
  | nil =>
      simp only [List.flatMap_nil, List.nil_append]
      rw [parseStrBody.eq_def]
      simp +decide
  | cons c cs ih =>
      rw [List.flatMap_cons, List.append_assoc, parseStrBody_escChar, ih]
      rfl

theorem parseStrBody_serStr (s : String) (tail : List Char) :
    parseStrBody (s.data.flatMap escChar ++ [quoteChar] ++ tail) = some (s.data, tail) := by
  rw [List.append_assoc]
  exact parseStrBody_ser s.data tail

theorem jfuel_pos (v : JValue) : 1 ≤ jfuel v := by
  cases v <;> simp [jfuel]

theorem serVal_head (st : Layout) (lvl : Nat) (v : JValue) :
    ∃ c cs, serVal st lvl v = c :: cs ∧ isWsChar c = false ∧ c ≠ ']' ∧ c ≠ '}' := by
  cases v with
  | null => exact ⟨'n', ['u', 'l', 'l'], by simp [serVal], by decide, by decide, by decide⟩
  | bool b =>
      cases b with
      | false => exact ⟨'f', ['a', 'l', 's', 'e'], by simp [serVal], by decide, by decide, by decide⟩
      | true => exact ⟨'t', ['r', 'u', 'e'], by simp [serVal], by decide, by decide, by decide⟩
  | num n =>
      by_cases hn : n < 0
      · exact ⟨Char.ofNat 45, natChars (-n).toNat, by simp [serVal, intChars, hn],
          by decide, by decide, by decide⟩
      · obtain ⟨d, ds, hds⟩ : ∃ d ds, natChars n.toNat = d :: ds := by
          cases hh : natChars n.toNat with
          | nil => exact absurd hh (natChars_ne_nil _)
          | cons d ds => exact ⟨d, ds, rfl⟩
        have hd : isDigitChar d = true := natChars_all_digits _ d (by rw [hds]; simp)
        exact ⟨d, ds, by simp [serVal, intChars, hn, hds], isDigitChar_not_ws hd,
          ne_of_digit hd (by decide), ne_of_digit hd (by decide)⟩
  | str s => exact ⟨quoteChar, s.data.flatMap escChar ++ [quoteChar],
      by simp [serVal, serStr], by decide, by decide, by decide⟩
  | arr xs =>
      cases xs with
      | nil => exact ⟨'[', [']'], by simp [serVal], by decide, by decide, by decide⟩
      | cons x rest =>
          exact ⟨'[', st.wsOpen lvl ++ serVal st (lvl + 1) x ++ serItems st lvl rest ++
            st.wsClose lvl ++ [']'], by simp [serVal], by decide, by decide, by decide⟩
  | obj fs =>
      cases fs with
      | nil => exact ⟨'{', ['}'], by simp [serVal], by decide, by decide, by decide⟩
      | cons kv rest =>
          exact ⟨'{', st.wsOpen lvl ++ serMember st lvl kv ++ serMembers st lvl rest ++
            st.wsClose lvl ++ ['}'], by simp [serVal], by decide, by decide, by decide⟩

theorem parseVal_append_ws {ws : List Char} (h : ∀ c ∈ ws, isWsChar c = true)
    (f : Nat) (cs : List Char) : parseVal f (ws ++ cs) = parseVal f cs := by
  cases f with
  | zero => rfl
  | succ f' =>
      simp only [parseVal]
      rw [skipWs_append_ws h]

/-- The decoder inverts the serializer, for any pure-whitespace layout: the core
induction, stated for values, trailing array items and trailing object members
simultaneously, on the decoder's recursion budget. -/
theorem parse_ser (st : Layout) (hst : LayoutOk st) : ∀ f : Nat,
    (∀ (v : JValue) (lvl : Nat) (rest : List Char), jfuel v ≤ f → delimOk rest = true →
      parseVal f (serVal st lvl v ++ rest) = some (v, rest)) ∧
    (∀ (x : JValue) (xs : List JValue) (lvl : Nat) (ws rest : List Char),
      itemsFuel (x :: xs) ≤ f → (∀ c ∈ ws, isWsChar c = true) → delimOk rest = true →
      parseItems f (ws ++ (serVal st (lvl + 1) x ++ (serItems st lvl xs ++
        (st.wsClose lvl ++ (']' :: rest))))) = some (x :: xs, rest)) ∧
    (∀ (k : String) (v : JValue) (fs : List (String × JValue)) (lvl : Nat)
      (ws rest : List Char),
      membersFuel ((k, v) :: fs) ≤ f → (∀ c ∈ ws, isWsChar c = true) → delimOk rest = true →
      parseMembers f (ws ++ (serMember st lvl (k, v) ++ (serMembers st lvl fs ++
        (st.wsClose lvl ++ ('}' :: rest))))) = some ((k, v) :: fs, rest)) := by
  intro f
  induction f using Nat.strong_induction_on with
  | _ f ih =>
      refine ⟨?_, ?_, ?_⟩
      · -- values
        intro v lvl rest hfuel hrest
        cases f with
        | zero => exact absurd hfuel (by have := jfuel_pos v; omega)
        | succ f' =>
            cases v with
            | null =>
                have e : serVal st lvl JValue.null = ['n', 'u', 'l', 'l'] := by simp [serVal]
                rw [e]
                simp +decide [parseVal, skipWs]
            | bool b =>
                cases b with
                | false =>
                    have e : serVal st lvl (JValue.bool false) = ['f', 'a', 'l', 's', 'e'] := by
                      simp [serVal]
                    rw [e]
                    simp +decide [parseVal, skipWs]
                | true =>
                    have e : serVal st lvl (JValue.bool true) = ['t', 'r', 'u', 'e'] := by
                      simp [serVal]
                    rw [e]
                    simp +decide [parseVal, skipWs]
            | num n =>
                by_cases hn : n < 0
                · have e : serVal st lvl (JValue.num n) ++ rest =
                      Char.ofNat 45 :: (natChars (-n).toNat ++ rest) := by
                    simp [serVal, intChars, hn]
                  rw [e]
                  obtain ⟨d, ds, hds⟩ : ∃ d ds, natChars (-n).toNat = d :: ds := by
                    cases hh : natChars (-n).toNat with
                    | nil => exact absurd hh (natChars_ne_nil _)
                    | cons d ds => exact ⟨d, ds, rfl⟩
                  have hd : isDigitChar d = true := natChars_all_digits _ d (by rw [hds]; simp)
                  simp only [parseVal]
                  rw [skipWs_cons_not_ws (by decide)]
                  rw [hds]
                  simp only [List.cons_append]
                  simp +decide only []
                  rw [if_pos hd]
                  rw [← List.cons_append, ← hds, readDigits_natChars, readDigits_stop hrest]
                  simp
                  omega
                · have e : serVal st lvl (JValue.num n) ++ rest = natChars n.toNat ++ rest := by
                    simp [serVal, intChars, hn]
                  rw [e]
                  obtain ⟨d, ds, hds⟩ : ∃ d ds, natChars n.toNat = d :: ds := by
                    cases hh : natChars n.toNat with
                    | nil => exact absurd hh (natChars_ne_nil _)
                    | cons d ds => exact ⟨d, ds, rfl⟩
                  have hd : isDigitChar d = true := natChars_all_digits _ d (by rw [hds]; simp)
                  rw [hds]
                  simp only [List.cons_append, parseVal]
                  rw [skipWs_cons_not_ws (isDigitChar_not_ws hd)]
                  simp only [ne_of_digit hd (by decide : isDigitChar '{' = false),
                    ne_of_digit hd (by decide : isDigitChar '[' = false),
                    ne_of_digit hd (by decide : isDigitChar quoteChar = false),
                    ne_of_digit hd (by decide : isDigitChar 't' = false),
                    ne_of_digit hd (by decide : isDigitChar 'f' = false),
                    ne_of_digit hd (by decide : isDigitChar 'n' = false),
                    ne_of_digit hd (by decide : isDigitChar (Char.ofNat 45) = false),
                    hd, if_false, if_true, ite_true, ite_false]
                  rw [← List.cons_append, ← hds, readDigits_natChars, readDigits_stop hrest]
                  simp
                  omega
            | str s =>
                have e : serVal st lvl (JValue.str s) = serStr s := by simp [serVal]
                rw [e]
                simp only [serStr, List.cons_append, List.append_assoc]
                simp +decide [parseVal, skipWs_cons_not_ws, skipWs]
                rw [parseStrBody_ser]
            | arr l =>
                cases l with
                | nil =>
                    have e : serVal st lvl (JValue.arr []) = ['[', ']'] := by simp [serVal]
                    rw [e]
                    simp +decide [parseVal, skipWs]
                | cons x xs =>
                    have e : serVal st lvl (JValue.arr (x :: xs)) ++ rest =
                        '[' :: (st.wsOpen lvl ++ (serVal st (lvl + 1) x ++
                          (serItems st lvl xs ++ (st.wsClose lvl ++ (']' :: rest))))) := by
                      simp [serVal]
                    rw [e]
                    simp only [parseVal]
                    rw [skipWs_cons_not_ws (by decide)]
                    simp +decide only []
                    rw [skipWs_append_ws (hst lvl).1]
                    obtain ⟨c0, cs0, hc0, hw0, hbr0, hbc0⟩ := serVal_head st (lvl + 1) x
                    rw [hc0]
                    simp only [List.cons_append]
                    rw [skipWs_cons_not_ws hw0]
                    simp only [hbr0, if_false, ite_false]
                    have hit := (ih f' (by omega)).2.1 x xs lvl [] rest
                      (by simp [jfuel] at hfuel <;> omega) (by simp) hrest
                    simp only [List.nil_append] at hit
                    rw [hc0] at hit
                    simp only [List.cons_append] at hit
                    rw [hit]
                    simp
            | obj l =>
                cases l with
                | nil =>
                    have e : serVal st lvl (JValue.obj []) = ['{', '}'] := by simp [serVal]
                    rw [e]
                    simp +decide [parseVal, skipWs]
                | cons kv fs =>
                    obtain ⟨k, v⟩ := kv
                    have e : serVal st lvl (JValue.obj ((k, v) :: fs)) ++ rest =
                        '{' :: (st.wsOpen lvl ++ (serMember st lvl (k, v) ++
                          (serMembers st lvl fs ++ (st.wsClose lvl ++ ('}' :: rest))))) := by
                      simp [serVal]
                    rw [e]
                    simp only [parseVal]
                    rw [skipWs_cons_not_ws (by decide)]
                    simp +decide only []
                    rw [skipWs_append_ws (hst lvl).1]
                    have hsm : serMember st lvl (k, v) =
                        quoteChar :: (k.data.flatMap escChar ++ [quoteChar] ++
                          (':' :: Char.ofNat 32 :: serVal st (lvl + 1) v)) := by
                      simp [serMember, serStr]
                    rw [hsm]
                    simp only [List.cons_append, List.append_assoc]
                    rw [skipWs_cons_not_ws (by decide)]
                    simp +decide only [if_false, ite_false]
                    have hmem := (ih f' (by omega)).2.2 k v fs lvl [] rest
                      (by simp [jfuel] at hfuel <;> omega) (by simp) hrest
                    simp only [List.nil_append] at hmem
                    rw [hsm] at hmem
                    simp only [List.cons_append, List.append_assoc] at hmem
                    rw [hmem]
                    simp
      · -- trailing array items
        intro x xs lvl ws rest hfuel hws hrest
        cases f with
        | zero => exact absurd hfuel (by simp [itemsFuel] <;> omega)
        | succ f' =>
            simp only [parseItems]
            rw [parseVal_append_ws hws]
            have hdel : delimOk (serItems st lvl xs ++ (st.wsClose lvl ++ (']' :: rest))) = true := by
              cases xs with
              | nil =>
                  simp only [serItems, List.nil_append]
                  exact delimOk_append_ws (hst lvl).2.2 (delimOk_cons (by decide) _)
              | cons y ys =>
                  simp only [serItems, List.cons_append]
                  exact delimOk_cons (by decide) _
            have hx := (ih f' (by omega)).1 x (lvl + 1)
              (serItems st lvl xs ++ (st.wsClose lvl ++ (']' :: rest)))
              (by simp [itemsFuel] at hfuel <;> omega) hdel
            rw [hx]
            simp only []
            cases xs with
            | nil =>
                simp only [serItems, List.nil_append]
                rw [skipWs_append_ws (hst lvl).2.2, skipWs_cons_not_ws (by decide)]
                simp +decide
            | cons y ys =>
                simp only [serItems, List.cons_append]
                rw [skipWs_cons_not_ws (by decide)]
                simp +decide only [if_false, ite_false]
                simp only [List.append_assoc]
                have hit := (ih f' (by omega)).2.1 y ys lvl (st.wsSep lvl) rest
                  (by simp [itemsFuel] at hfuel ⊢ <;> omega) (hst lvl).2.1 hrest
                simp only [List.append_assoc] at hit
                rw [hit]
                simp
      · -- trailing object members
        intro k v fs lvl ws rest hfuel hws hrest
        cases f with
        | zero => exact absurd hfuel (by simp [membersFuel] <;> omega)
        | succ f' =>
            simp only [parseMembers]
            rw [skipWs_append_ws hws]
            have hsm : serMember st lvl (k, v) ++ (serMembers st lvl fs ++
                (st.wsClose lvl ++ ('}' :: rest))) =
                quoteChar :: (k.data.flatMap escChar ++ (quoteChar ::
                  (':' :: (Char.ofNat 32 :: (serVal st (lvl + 1) v ++
                    (serMembers st lvl fs ++ (st.wsClose lvl ++ ('}' :: rest)))))))) := by
              simp [serMember, serStr]
            rw [hsm]
            rw [skipWs_cons_not_ws (by decide)]
            simp +decide only []
            rw [parseStrBody_ser]
            simp only []
            rw [skipWs_cons_not_ws (by decide)]
            simp +decide only [if_true, ite_true]
            have hws32 : ∀ c ∈ [Char.ofNat 32], isWsChar c = true := by
              intro c hc
              simp at hc
              subst hc
              decide
            rw [show (Char.ofNat 32 :: (serVal st (lvl + 1) v ++
                (serMembers st lvl fs ++ (st.wsClose lvl ++ ('}' :: rest))))) =
              [Char.ofNat 32] ++ (serVal st (lvl + 1) v ++
                (serMembers st lvl fs ++ (st.wsClose lvl ++ ('}' :: rest)))) from rfl]
            rw [parseVal_append_ws hws32]
            have hdel : delimOk (serMembers st lvl fs ++
                (st.wsClose lvl ++ ('}' :: rest))) = true := by
              cases fs with
              | nil =>
                  simp only [serMembers, List.nil_append]
                  exact delimOk_append_ws (hst lvl).2.2 (delimOk_cons (by decide) _)
              | cons kv2 fs2 =>
                  simp only [serMembers, List.cons_append]
                  exact delimOk_cons (by decide) _
            have hv := (ih f' (by omega)).1 v (lvl + 1)
              (serMembers st lvl fs ++ (st.wsClose lvl ++ ('}' :: rest)))
              (by simp [membersFuel] at hfuel <;> omega) hdel
            rw [hv]
            simp only []
            cases fs with
            | nil =>
                simp only [serMembers, List.nil_append]
                rw [skipWs_append_ws (hst lvl).2.2, skipWs_cons_not_ws (by decide)]
                simp +decide
            | cons kv2 fs2 =>
                obtain ⟨k2, v2⟩ := kv2
                simp only [serMembers, List.cons_append]
                rw [skipWs_cons_not_ws (by decide)]
                simp +decide only [if_false, ite_false]
                simp only [List.append_assoc]
                have hmem := (ih f' (by omega)).2.2 k2 v2 fs2 lvl (st.wsSep lvl) rest
                  (by simp [membersFuel] at hfuel ⊢ <;> omega) (hst lvl).2.1 hrest
                simp only [List.append_assoc] at hmem
                rw [hmem]
                simp

/-- The decoder budget needed for a value never exceeds its serialized length
(each budget unit corresponds to at least one serialized character). -/
theorem fuel_le_len (st : Layout) : ∀ n : Nat,
    (∀ v : JValue, jfuel v ≤ n → ∀ lvl, jfuel v ≤ (serVal st lvl v).length) ∧
    (∀ xs : List JValue, itemsFuel xs ≤ n → ∀ lvl,
      itemsFuel xs ≤ (serItems st lvl xs).length) ∧
    (∀ fs : List (String × JValue), membersFuel fs ≤ n → ∀ lvl,
      membersFuel fs ≤ (serMembers st lvl fs).length) := by
  intro n
  induction n using Nat.strong_induction_on with
  | _ n ih =>
      refine ⟨?_, ?_, ?_⟩
      · intro v hv lvl
        cases v with
        | null => simp [serVal, jfuel]
        | bool b => cases b <;> simp [serVal, jfuel]
        | num m =>
            have hne : intChars m ≠ [] := by
              unfold intChars
              split
              · simp
              · exact natChars_ne_nil _
            have := List.length_pos.mpr hne
            simp [serVal, jfuel]
            omega
        | str s =>
            simp [serVal, serStr, jfuel]
        | arr xs =>
            cases xs with
            | nil => simp [serVal, jfuel, itemsFuel]
            | cons x xs' =>
                have hn : 2 ≤ n := by
                  have := jfuel_pos x
                  simp [jfuel, itemsFuel] at hv
                  omega
                have hfx : jfuel x ≤ n - 1 := by
                  simp [jfuel, itemsFuel] at hv
                  omega
                have hfxs : itemsFuel xs' ≤ n - 1 := by
                  simp [jfuel, itemsFuel] at hv
                  omega
                have h1 := (ih (n - 1) (by omega)).1 x hfx (lvl + 1)
                have h2 := (ih (n - 1) (by omega)).2.1 xs' hfxs lvl
                simp [serVal, jfuel, itemsFuel, List.length_append] at h1 h2 ⊢
                omega
        | obj fs =>
            cases fs with
            | nil => simp [serVal, jfuel, membersFuel]
            | cons kv fs' =>
                obtain ⟨k, v⟩ := kv
                have hn : 2 ≤ n := by
                  have := jfuel_pos v
                  simp [jfuel, membersFuel] at hv
                  omega
                have hfv : jfuel v ≤ n - 1 := by
                  simp [jfuel, membersFuel] at hv
                  omega
                have hffs : membersFuel fs' ≤ n - 1 := by
                  simp [jfuel, membersFuel] at hv
                  omega
                have h1 := (ih (n - 1) (by omega)).1 v hfv (lvl + 1)
                have h2 := (ih (n - 1) (by omega)).2.2 fs' hffs lvl
                simp [serVal, serMember, jfuel, membersFuel, List.length_append] at h1 h2 ⊢
                omega
      · intro xs hxs lvl
        cases xs with
        | nil => simp [itemsFuel, serItems]
        | cons x xs' =>
            have hn : 1 ≤ n := by
              simp [itemsFuel] at hxs
              omega
            have hfx : jfuel x ≤ n - 1 := by
              simp [itemsFuel] at hxs
              omega
            have hfxs : itemsFuel xs' ≤ n - 1 := by
              simp [itemsFuel] at hxs
              omega
            have h1 := (ih (n - 1) (by omega)).1 x hfx (lvl + 1)
            have h2 := (ih (n - 1) (by omega)).2.1 xs' hfxs lvl
            simp [itemsFuel, serItems, List.length_append] at h1 h2 ⊢
            omega
      · intro fs hfs lvl
        cases fs with
        | nil => simp [membersFuel, serMembers]
        | cons kv fs' =>
            obtain ⟨k, v⟩ := kv
            have hn : 1 ≤ n := by
              simp [membersFuel] at hfs
              omega
            have hfv : jfuel v ≤ n - 1 := by
              simp [membersFuel] at hfs
              omega
            have hffs : membersFuel fs' ≤ n - 1 := by
              simp [membersFuel] at hfs
              omega
            have h1 := (ih (n - 1) (by omega)).1 v hfv (lvl + 1)
            have h2 := (ih (n - 1) (by omega)).2.2 fs' hffs lvl
            simp [membersFuel, serMembers, serMember, List.length_append] at h1 h2 ⊢
            omega

/-- Decoding inverts serialization, for any pure-whitespace layout. -/
theorem loads_serVal (st : Layout) (hst : LayoutOk st) (v : JValue) :
    loads ⟨serVal st 0 v⟩ = some v := by
  have hlen : jfuel v ≤ (serVal st 0 v).length :=
    (fuel_le_len st (jfuel v)).1 v le_rfl 0
  have h := (parse_ser st hst ((serVal st 0 v).length + 1)).1 v 0 []
    (by omega) (by simp [delimOk])
  simp only [List.append_nil] at h
  show (match parseVal ((serVal st 0 v).length + 1) (serVal st 0 v) with
        | some (v, rest) => if skipWs rest = [] then some v else none
        | none => none) = some v
  rw [h]
  simp [skipWs]

/-- The file text `json.dump(doc, f, indent=2, ensure_ascii=False)` writes. -/
def dumps (v : JValue) : String := ⟨serVal pythonLayout 0 v⟩

/-- The notification payload: the stored document re-read and cast `jsonb::text`
(modelled with insertion-ordered keys, as `jsonb_build_object` receives them). -/
def jsonbText (v : JValue) : String := ⟨serVal jsonbLayout 0 v⟩

/-- `json.loads` inverts the pretty-printed file text. -/
theorem loads_dumps (v : JValue) : loads (dumps v) = some v :=
  loads_serVal pythonLayout pythonLayout_ok v

/-- `json.loads` inverts the published `jsonb::text` payload. -/
theorem loads_jsonbText (v : JValue) : loads (jsonbText v) = some v :=
  loads_serVal jsonbLayout jsonbLayout_ok v

/-! ## Relational state (`create_tables`) -/

/-- One row of `customers` (all `NOT NULL` or always supplied by `insert_profile`). -/
structure CustomerRow where
  customer_id : String
  first_name : String
  last_name : String
  gender : String
  date_of_birth : Date
  email : String
  mobile_phone : String
  home_address : String
  city : String
  postal_code : String
  country : String
  iso_country_code : String
  test_profile : String
  profile_creation_date : String
deriving Repr, DecidableEq

/-- One row of `retail_preferences`. -/
structure RetailRow where
  customer_id : String
  favourite_color : String
  favourite_category : String
  favourite_sub_category : String
  shirt_size : String
  pants_size : String
  shoe_size : String
deriving Repr, DecidableEq

/-- One row of `marketing_preferences`. -/
structure MarketingRow where
  customer_id : String
  marketing_consent : Bool
  preferred_communication_method : String
deriving Repr, DecidableEq

/-- One row of `loyalty_members`. -/
structure LoyaltyRow where
  loyalty_number_id : String
  customer_id : String
  date_joined : Date
  points : Int
deriving Repr, DecidableEq

/-- One row of `customer_json_profiles` (the DerivedDocument table). -/
structure JsonRow where
  customer_id : String
  json_data : JValue
deriving Repr

/-- The whole store, plus the channel: `notifications` is the queue of payloads
published on `we_got_new_amazing_client`, oldest first. Tables are row lists,
newest first; the key constraints below keep keys unique, so lookup by
`find?` agrees with SQL lookup. -/
structure DBState where
  customers : List CustomerRow
  retail_preferences : List RetailRow
  marketing_preferences : List MarketingRow
  loyalty_members : List LoyaltyRow
  customer_json_profiles : List JsonRow
  notifications : List String
deriving Repr

/-- The store right after `create_tables` / `setup_json_generation`. -/
def emptyDB : DBState := ⟨[], [], [], [], [], []⟩

/-- The profile dictionary `insert_profile` receives (flattened;
`system_data`/`personal_details`/`retail_preferences`/`marketing_preferences`/
`loyalty_data` keys of the generator's dict). -/
structure Profile where
  customer_id : String
  first_name : String
  last_name : String
  gender : String
  date_of_birth : String
  email : String
  mobile_phone : String
  home_address : String
  home_city : String
  postal_code : String
  country : String
  iso_country_code : String
  test_profile : Bool
  favourite_color : String
  favourite_category : String
  favourite_sub_category : String
  shirt_size : String
  pants_size : String
  shoe_size : String
  consent : Bool
  preferred_communication_method : String
  loyalty_number_id : String
  date_joined : String
  points : Int
deriving Repr, DecidableEq

/-- Field lookup on a JSON object (`jsonb -> key`, or Python `dict.get`). -/
def JValue.getField : JValue → String → Option JValue
  | .obj fs, key => (fs.find? (fun kv => kv.1 = key)).map (fun kv => kv.2)
  | _, _ => none

/-- Two-level field lookup. -/
def jGet2 (v : JValue) (k1 k2 : String) : Option JValue :=
  (v.getField k1).bind (fun w => w.getField k2)

/-- `CAST(to_char(date_of_birth, 'YYYY') AS INTEGER)`: the numeric value of the
zero-padded year text. -/
def birthYearInt (d : Date) : Int :=
  (digitsVal (pad4 d.year.toNat) : Int)

/-- The `jsonb_build_object` tree of `generate_customer_json`, for the joined
rows of one customer; `today` is `CURRENT_DATE` (for `age`), `lid` and `shoe`
the results of the two text casts. -/
def buildCustomerJson (c : CustomerRow) (r : RetailRow) (m : MarketingRow)
    (l : LoyaltyRow) (today : Date) (lid shoe : Int) : JValue :=
  .obj [
    ("createDate", .str c.profile_creation_date),
    ("identification", .obj [
      ("customerId", .str c.customer_id),
      ("email", .str c.email),
      ("loyaltyId", .num lid),
      ("phoneNumber", .str c.mobile_phone)]),
    ("individualCharacteristics", .obj [
      ("core", .obj [
        ("age", .num (ageYears today c.date_of_birth)),
        ("favouriteCategory", .str r.favourite_category),
        ("favouriteSubCategory", .str r.favourite_sub_category)]),
      ("retail", .obj [
        ("favoriteColor", .str r.favourite_color),
        ("pantsSize", .str r.pants_size),
        ("shirtSize", .str r.shirt_size),
        ("shoeSize", .num shoe)])]),
    ("userAccount", .obj [
      ("ID", .str c.customer_id)]),
    ("loyalty", .obj [
      ("loyaltyID", .num lid),
      ("joinDate", .str (dateISO l.date_joined)),
      ("points", .num l.points)]),
    ("consents", .obj [
      ("collect", .obj [
        ("val", .str (if m.marketing_consent then "y" else "n"))]),
      ("marketing", .obj [
        ("preferred", .str m.preferred_communication_method)])]),
    ("homeAddress", .obj [
      ("city", .str c.city),
      ("country", .str c.country),
      ("countryCode", .str c.iso_country_code),
      ("street1", .str c.home_address),
      ("postalCode", .str c.postal_code)]),
    ("mobilePhone", .obj [
      ("number", .str c.mobile_phone)]),
    ("person", .obj [
      ("birthDayAndMonth", .str (toCharMMDD c.date_of_birth)),
      ("birthYear", .num (birthYearInt c.date_of_birth)),
      ("name", .obj [
        ("lastName", .str c.last_name),
        ("fullName", .str (c.first_name ++ " " ++ c.last_name)),
        ("firstName", .str c.first_name)]),
      ("gender", .str c.gender)]),
    ("personalEmail", .obj [
      ("address", .str c.email)]),
    ("testProfile", .str c.test_profile)]

/-- The `generate_customer_json` trigger function, fired AFTER INSERT ON
`loyalty_members` for the row with customer id `cid`; `s` is the state with the
new loyalty row already in place. It inner-joins the four tables, inserts the
built document into `customer_json_profiles` when the join has a row, then
executes `PERFORM pg_notify('we_got_new_amazing_client', (SELECT json_data::text
...))`. `pg_notify` coerces a NULL payload argument to the empty string and
still queues the notification. `none` models an error raised inside the trigger,
which aborts the triggering INSERT statement. -/
def generate_customer_json (today : Date) (cid : String) (s : DBState) : Option DBState :=
  match s.customers.find? (fun c => c.customer_id = cid),
        s.retail_preferences.find? (fun r => r.customer_id = cid),
        s.marketing_preferences.find? (fun m => m.customer_id = cid),
        s.loyalty_members.find? (fun l => l.customer_id = cid) with
  | some c, some r, some m, some l =>
      match parseBigInt l.loyalty_number_id, parseBigInt r.shoe_size with
      | some lid, some shoe =>
          if s.customer_json_profiles.any (fun j => j.customer_id = cid) then
            none
          else
            let jrows : List JsonRow := ⟨cid, buildCustomerJson c r m l today lid shoe⟩ ::
              s.customer_json_profiles
            let payload :=
              match jrows.find? (fun j => j.customer_id = cid) with
              | some j => jsonbText j.json_data
              | none => ""
            some { s with customer_json_profiles := jrows,
                          notifications := s.notifications ++ [payload] }
      | _, _ => none
  | _, _, _, _ =>
      let payload :=
        match s.customer_json_profiles.find? (fun j => j.customer_id = cid) with
        | some j => jsonbText j.json_data
        | none => ""
      some { s with notifications := s.notifications ++ [payload] }

/-- The first statement of `insert_profile`: INSERT INTO customers. `none` is a
raised `psycopg2.Error` (bad DATE literal, length overflow, key violation). -/
def insertCustomer (now : String) (p : Profile) (s : DBState) : Option DBState :=
  match parseDate p.date_of_birth with
  | none => none
  | some dob =>
      if p.customer_id.length ≤ 36 && p.first_name.length ≤ 50 &&
          p.last_name.length ≤ 50 && p.gender.length ≤ 20 && p.email.length ≤ 100 &&
          p.mobile_phone.length ≤ 30 && p.home_address.length ≤ 100 &&
          p.home_city.length ≤ 50 && p.postal_code.length ≤ 30 &&
          p.country.length ≤ 50 && p.iso_country_code.length ≤ 2 then
        if s.customers.any (fun c => c.customer_id = p.customer_id) then none
        else if s.customers.any (fun c => c.email = p.email) then none
        else some { s with customers :=
          { customer_id := p.customer_id
            first_name := p.first_name
            last_name := p.last_name
            gender := p.gender
            date_of_birth := dob
            email := p.email
            mobile_phone := p.mobile_phone
            home_address := p.home_address
            city := p.home_city
            postal_code := p.postal_code
            country := p.country
            iso_country_code := p.iso_country_code
            test_profile := if p.test_profile then "true" else "false"
            profile_creation_date := now } :: s.customers }
      else none

/-- Second statement: INSERT INTO retail_preferences. -/
def insertRetailPreferences (p : Profile) (s : DBState) : Option DBState :=
  if p.customer_id.length ≤ 36 && p.favourite_color.length ≤ 30 &&
      p.favourite_category.length ≤ 50 && p.favourite_sub_category.length ≤ 50 &&
      p.shirt_size.length ≤ 10 && p.pants_size.length ≤ 10 && p.shoe_size.length ≤ 10 then
    if s.retail_preferences.any (fun r => r.customer_id = p.customer_id) then none
    else if !(s.customers.any (fun c => c.customer_id = p.customer_id)) then none
    else some { s with retail_preferences :=
      { customer_id := p.customer_id
        favourite_color := p.favourite_color
        favourite_category := p.favourite_category
        favourite_sub_category := p.favourite_sub_category
        shirt_size := p.shirt_size
        pants_size := p.pants_size
        shoe_size := p.shoe_size } :: s.retail_preferences }
  else none

/-- Third statement: INSERT INTO marketing_preferences. -/
def insertMarketingPreferences (p : Profile) (s : DBState) : Option DBState :=
  if p.customer_id.length ≤ 36 && p.preferred_communication_method.length ≤ 20 then
    if s.marketing_preferences.any (fun m => m.customer_id = p.customer_id) then none
    else if !(s.customers.any (fun c => c.customer_id = p.customer_id)) then none
    else some { s with marketing_preferences :=
      { customer_id := p.customer_id
        marketing_consent := p.consent
        preferred_communication_method := p.preferred_communication_method } ::
        s.marketing_preferences }
  else none

/-- Fourth statement: INSERT INTO loyalty_members. The AFTER INSERT trigger
`generate_customer_json` runs inside the same statement; if it raises, the
whole statement — loyalty row included — is rolled back. -/
def insertLoyaltyMembers (today : Date) (p : Profile) (s : DBState) : Option DBState :=
  match parseDate p.date_joined with
  | none => none
  | some dj =>
      if p.loyalty_number_id.length ≤ 36 && p.customer_id.length ≤ 36 then
        if s.loyalty_members.any (fun l => l.loyalty_number_id = p.loyalty_number_id) then
          none
        else if s.loyalty_members.any (fun l => l.customer_id = p.customer_id) then none
        else if !(s.customers.any (fun c => c.customer_id = p.customer_id)) then none
        else
          generate_customer_json today p.customer_id
            { s with loyalty_members :=
              { loyalty_number_id := p.loyalty_number_id
                customer_id := p.customer_id
                date_joined := dj
                points := p.points } :: s.loyalty_members }
      else none

/-- `DatabaseControl.insert_profile`: the four INSERTs in fixed order, on a
connection set to `ISOLATION_LEVEL_AUTOCOMMIT` by `get_connection` — each
successful statement commits immediately and independently. A `psycopg2.Error`
in any statement is caught by the surrounding `except`, which logs and returns
`False`; statements already committed stay committed. `now` stands for
`CURRENT_TIMESTAMP` (the `profile_creation_date` default), `today` for
`CURRENT_DATE`. -/
def insert_profile (now : String) (today : Date) (p : Profile) (s : DBState) :
    Bool × DBState :=
  match insertCustomer now p s with
  | none => (false, s)
  | some s1 =>
      match insertRetailPreferences p s1 with
      | none => (false, s1)
      | some s2 =>
          match insertMarketingPreferences p s2 with
          | none => (false, s2)
          | some s3 =>
              match insertLoyaltyMembers today p s3 with
              | none => (false, s3)
              | some s4 => (true, s4)

/-- `generate_and_store_profiles` (main.py): insert each generated profile in
turn; a `False` from `insert_profile` is logged and the loop continues with the
next profile. Returns the final state and, in order, each profile's success
flag. -/
def generate_and_store_profiles (now : String) (today : Date) :
    List Profile → DBState → DBState × List Bool
  | [], s => (s, [])
  | p :: ps, s =>
      let r := insert_profile now today p s
      let rest := generate_and_store_profiles now today ps r.2
      (rest.1, r.1 :: rest.2)

/-! ## Notification listener (`start_listening`) and file sink -/

/-- Python `repr` restricted to decoded-JSON values, character list form
(only reachable through `str()` of a non-string correlation id, which the
documents this system publishes never produce). -/
def pyReprStrChars (s : String) : List Char :=
  let apos := Char.ofNat 39
  let q := if s.data.contains apos && !(s.data.contains quoteChar) then quoteChar else apos
  let esc := fun c =>
    if c = backslashChar then [backslashChar, backslashChar]
    else if c = q then [backslashChar, c]
    else if c.toNat = 10 then [backslashChar, 'n']
    else if c.toNat = 13 then [backslashChar, 'r']
    else if c.toNat = 9 then [backslashChar, 't']
    else if c.toNat < 32 || c.toNat = 127 then
      [backslashChar, 'x', hexDigitChar (c.toNat / 16), hexDigitChar (c.toNat % 16)]
    else [c]
  q :: (s.data.flatMap esc ++ [q])

mutual

def pyReprChars (v : JValue) : List Char :=
  match v with
  | .null => ['N', 'o', 'n', 'e']
  | .bool true => ['T', 'r', 'u', 'e']
  | .bool false => ['F', 'a', 'l', 's', 'e']
  | .num n => intChars n
  | .str s => pyReprStrChars s
  | .arr xs => '[' :: (pyReprItems xs ++ [']'])
  | .obj fs => Char.ofNat 123 :: (pyReprMembers fs ++ [Char.ofNat 125])
termination_by sizeOf v

def pyReprItems (xs : List JValue) : List Char :=
  match xs with
  | [] => []
  | [x] => pyReprChars x
  | x :: rest => pyReprChars x ++ ',' :: ' ' :: pyReprItems rest
termination_by sizeOf xs

def pyReprMembers (fs : List (String × JValue)) : List Char :=
  match fs with
  | [] => []
  | [(k, v)] => pyReprStrChars k ++ ':' :: ' ' :: pyReprChars v
  | (k, v) :: rest =>
      pyReprStrChars k ++ ':' :: ' ' :: pyReprChars v ++ ',' :: ' ' :: pyReprMembers rest
termination_by sizeOf fs

end

/-- Python `str()` of a decoded JSON value, as f-string interpolation renders it. -/
def pyStr : JValue → String
  | .str s => s
  | v => ⟨pyReprChars v⟩

/-- `data.get('identification', {}).get('customerId', 'unknown')` on the decoded
payload. `none` models an `AttributeError` (`.get` on a non-dict), raised before
the callback and caught by the listener's `except`. -/
def extractCustomerId (d : JValue) : Option String :=
  match d with
  | .obj _ =>
      match d.getField "identification" with
      | some (.obj gs) =>
          match (gs.find? (fun kv => kv.1 = "customerId")).map (fun kv => kv.2) with
          | some v => some (pyStr v)
          | none => some "unknown"
      | some _ => none
      | none => some "unknown"
  | _ => none

/-- Outcome of processing one drained notification inside the `try` of the
`while _conn.notifies` loop. The handler is a callback returning `true` when it
returns normally and `false` when it raises. -/
inductive ProcResult where
  | decodeError
  | extractError (doc : JValue)
  | handled (doc : JValue) (ok : Bool)
deriving Repr

/-- One iteration of the inner loop on the popped notification: log, decode the
payload with `json.loads`, read the correlation id, invoke the callback; every
exception is caught by the `except` and only logged. -/
def processNotification (cb : JValue → Bool) (payload : String) : ProcResult :=
  match loads payload with
  | none => .decodeError
  | some d =>
      match extractCustomerId d with
      | none => .extractError d
      | some _ => .handled d (cb d)

/-- The `while _conn.notifies` loop: pop the head (`pop(0)`) and process it,
until the buffer is empty; a caught exception never exits the loop. -/
def drainAll (cb : JValue → Bool) : List String → List ProcResult
  | [] => []
  | payload :: rest => processNotification cb payload :: drainAll cb rest

/-- One wake of the outer `while True` loop with `buffer` the notifications
`poll` has accumulated: the inner loop drains all of them, leaving an empty
buffer, before the loop returns to `select` (the next wait). -/
def wakeCycle (cb : JValue → Bool) (buffer : List String) :
    List String × List ProcResult :=
  ([], drainAll cb buffer)

/-- Number of handler (callback) invocations among the processing outcomes. -/
def handlerCalls (rs : List ProcResult) : Nat :=
  rs.countP (fun r => match r with | .handled _ _ => true | _ => false)

/-- The documents passed to the handler, in delivery order. -/
def handledDocs (rs : List ProcResult) : List JValue :=
  rs.filterMap (fun r => match r with | .handled d _ => some d | _ => none)

/-- The listener over successive wake cycles: batch `k` of `batches` is what is
buffered when the listener wakes for the `k`-th time; its results all precede
the next wait. -/
def listenerTrace (cb : JValue → Bool) (batches : List (List String)) :
    List (List ProcResult) :=
  batches.map (drainAll cb)

/-- `Transform.save_json_to_file`: extract the nested customer id, build the
file name from it and the current timestamp `ts`
(`datetime.now().strftime('%Y%m%d_%H%M%S')`), and write the document
pretty-printed with `ensure_ascii=False`. Returns (file name, file text);
`none` models a raised exception (logged, then re-raised). -/
def save_json_to_file (d : JValue) (ts : String) : Option (String × String) :=
  match d with
  | .obj _ =>
      match d.getField "identification" with
      | some (.obj gs) =>
          let cid :=
            match (gs.find? (fun kv => kv.1 = "customerId")).map (fun kv => kv.2) with
            | some v => pyStr v
            | none => "unknown"
          some ("profile_" ++ cid ++ "_" ++ ts ++ ".json", dumps d)
      | some _ => none
      | none => some ("profile_unknown_" ++ ts ++ ".json", dumps d)
  | _ => none

/-! ## Supporting lemmas for the claim theorems -/

theorem readDigits_all_digits (cs : List Char) (hall : ∀ c ∈ cs, isDigitChar c = true) :
    ∀ acc, readDigits cs acc =
      (cs.foldl (fun acc c => 10 * acc + (c.toNat - 48)) acc, []) := by
  induction cs with
  | nil => intro acc; rfl
  | cons c cs' ih =>
      intro acc
      have hc : isDigitChar c = true := hall c (by simp)
      simp only [readDigits, hc, if_pos, List.foldl_cons]
      exact ih (fun d hd => hall d (by simp [hd])) _

theorem digitsVal_natChars (n : Nat) : digitsVal (natChars n) = n := by
  have h1 := readDigits_natChars n [] 0
  have h2 := readDigits_all_digits (natChars n) (natChars_all_digits n) 0
  simp only [List.append_nil] at h1
  rw [h2] at h1
  simp only [readDigits] at h1
  have := congrArg Prod.fst h1
  simpa [digitsVal] using this

theorem digitsVal_zeros_append (k : Nat) (cs : List Char) :
    digitsVal (List.replicate k (digitChar 0) ++ cs) = digitsVal cs := by
  induction k with
  | zero => simp
  | succ k' ih =>
      simp only [List.replicate_succ, List.cons_append, digitsVal, List.foldl_cons]
      have : 10 * 0 + ((digitChar 0).toNat - 48) = 0 := by decide
      rw [this]
      exact ih

theorem digitsVal_pad4 (n : Nat) : digitsVal (pad4 n) = n := by
  unfold pad4
  rw [digitsVal_zeros_append, digitsVal_natChars]

/-- `CAST(to_char(d, 'YYYY') AS INTEGER)` recovers the year, for the CE years
every stored date has. -/
theorem birthYearInt_eq {d : Date} (h : 0 ≤ d.year) : birthYearInt d = d.year := by
  unfold birthYearInt
  rw [digitsVal_pad4]
  omega

theorem insertCustomer_some {now : String} {p : Profile} {s s1 : DBState}
    (h : insertCustomer now p s = some s1) :
    ∃ row : CustomerRow, row.customer_id = p.customer_id ∧
      s1 = { s with customers := row :: s.customers } := by
  simp only [insertCustomer] at h
  split at h
  · cases h
  · split at h
    · split at h
      · cases h
      · split at h
        · cases h
        · exact ⟨_, rfl, (Option.some.inj h).symm⟩
    · cases h

theorem insertRetail_some {p : Profile} {s s1 : DBState}
    (h : insertRetailPreferences p s = some s1) :
    ∃ row : RetailRow, row.customer_id = p.customer_id ∧
      s1 = { s with retail_preferences := row :: s.retail_preferences } := by
  simp only [insertRetailPreferences] at h
  split at h
  · split at h
    · cases h
    · split at h
      · cases h
      · exact ⟨_, rfl, (Option.some.inj h).symm⟩
  · cases h

theorem insertMarketing_some {p : Profile} {s s1 : DBState}
    (h : insertMarketingPreferences p s = some s1) :
    ∃ row : MarketingRow, row.customer_id = p.customer_id ∧
      s1 = { s with marketing_preferences := row :: s.marketing_preferences } := by
  simp only [insertMarketingPreferences] at h
  split at h
  · split at h
    · cases h
    · split at h
      · cases h
      · exact ⟨_, rfl, (Option.some.inj h).symm⟩
  · cases h

/-- The inner drain loop processes the buffered notifications elementwise. -/
theorem drainAll_eq_map (cb : JValue → Bool) (buf : List String) :
    drainAll cb buf = buf.map (processNotification cb) := by
  induction buf with
  | nil => rfl
  | cons p rest ih => simp [drainAll, ih]

/-! ## Concrete inputs used by witnesses and counterexamples -/

/-- A well-formed generated profile (customer `c1`). -/
def profileA : Profile :=
  { customer_id := "c1"
    first_name := "Ann"
    last_name := "Lee"
    gender := "female"
    date_of_birth := "1990-03-15"
    email := "ann.lee@example.com"
    mobile_phone := "555-0100"
    home_address := "1 Main St"
    home_city := "Springfield"
    postal_code := "11111"
    country := "United States"
    iso_country_code := "US"
    test_profile := true
    favourite_color := "Red"
    favourite_category := "Mens"
    favourite_sub_category := "Shirts"
    shirt_size := "M"
    pants_size := "L"
    shoe_size := "42"
    consent := true
    preferred_communication_method := "email"
    loyalty_number_id := "2201123"
    date_joined := "2020-01-02"
    points := 10 }

/-- A second profile that collides with `profileA` on `loyalty_number_id`
(its primary key) while all its other keys are fresh. -/
def profileB : Profile :=
  { profileA with
    customer_id := "c2"
    email := "bob.ray@example.com"
    consent := false }

/-- `CURRENT_DATE` used in the concrete runs. -/
def today0 : Date := ⟨2024, 6, 1⟩

/-- The store after successfully inserting `profileA` into the fresh store. -/
def dbAfterA : DBState := (insert_profile "ts0" today0 profileA emptyDB).2

/-- A store holding `c1`'s customers and retail_preferences rows but no
marketing_preferences row: the call order was violated, so the trigger's inner
join for `c1` yields zero rows. -/
def dbPartialA : DBState :=
  match insertCustomer "ts0" profileA emptyDB with
  | some s1 =>
      match insertRetailPreferences profileA s1 with
      | some s2 => s2
      | none => emptyDB
  | none => emptyDB

/-- Three-level field lookup. -/
def jGet3 (v : JValue) (k1 k2 k3 : String) : Option JValue :=
  (jGet2 v k1 k2).bind (fun w => w.getField k3)

/-- The empty JSON object as channel payload text. -/
def objPayload : String := ⟨['{', '}']⟩

/-- Joined rows for the scenario customer born 1990-03-15. -/
def crow0 : CustomerRow :=
  { customer_id := "c1"
    first_name := "Ann"
    last_name := "Lee"
    gender := "female"
    date_of_birth := ⟨1990, 3, 15⟩
    email := "ann.lee@example.com"
    mobile_phone := "555-0100"
    home_address := "1 Main St"
    city := "Springfield"
    postal_code := "11111"
    country := "United States"
    iso_country_code := "US"
    test_profile := "true"
    profile_creation_date := "ts0" }

def rrow0 : RetailRow :=
  { customer_id := "c1"
    favourite_color := "Red"
    favourite_category := "Mens"
    favourite_sub_category := "Shirts"
    shirt_size := "M"
    pants_size := "L"
    shoe_size := "42" }

def mrow0 : MarketingRow :=
  { customer_id := "c1"
    marketing_consent := true
    preferred_communication_method := "email" }

def lrow0 : LoyaltyRow :=
  { loyalty_number_id := "2201123"
    customer_id := "c1"
    date_joined := ⟨2020, 1, 2⟩
    points := 10 }

/-! ## Claim theorems -/

/-- C7: in every assembled document, `consents.collect.val` is the single
character "y" when the customer's `marketing_consent` is true and "n" when it
is false — a string produced by `CASE WHEN m.marketing_consent THEN 'y' ELSE
'n' END`, never a boolean. -/
theorem c7_consents_collect_val (c : CustomerRow) (r : RetailRow) (m : MarketingRow)
    (l : LoyaltyRow) (today : Date) (lid shoe : Int) :
    jGet3 (buildCustomerJson c r m l today lid shoe) "consents" "collect" "val" =
      some (.str (if m.marketing_consent then "y" else "n")) := rfl

/-- C8: in every assembled document, `individualCharacteristics.core.age` is
`EXTRACT(YEAR FROM age(date_of_birth))` at the current date,
`person.birthDayAndMonth` is the birth date rendered `MM-DD`, and
`person.birthYear` is the numeric value of `to_char(date_of_birth, 'YYYY')`,
which equals the birth year for every CE date; at current date 2024-06-01 a
customer born 1990-03-15 gets birthDayAndMonth "03-15", birthYear 1990 and
age 34. -/
theorem c8_age_and_birth_fields (c : CustomerRow) (r : RetailRow) (m : MarketingRow)
    (l : LoyaltyRow) (today : Date) (lid shoe : Int) :
    jGet3 (buildCustomerJson c r m l today lid shoe)
      "individualCharacteristics" "core" "age" =
      some (.num (ageYears today c.date_of_birth)) ∧
    jGet2 (buildCustomerJson c r m l today lid shoe) "person" "birthDayAndMonth" =
      some (.str (toCharMMDD c.date_of_birth)) ∧
    jGet2 (buildCustomerJson c r m l today lid shoe) "person" "birthYear" =
      some (.num (birthYearInt c.date_of_birth)) ∧
    (0 ≤ c.date_of_birth.year → birthYearInt c.date_of_birth = c.date_of_birth.year) ∧
    toCharMMDD ⟨1990, 3, 15⟩ = "03-15" ∧
    birthYearInt ⟨1990, 3, 15⟩ = 1990 ∧
    ageYears ⟨2024, 6, 1⟩ ⟨1990, 3, 15⟩ = 34 := by
  refine ⟨rfl, rfl, rfl, birthYearInt_eq, ?_, ?_, ?_⟩
  · simp [toCharMMDD, pad2, natChars, digitChar]
  · exact birthYearInt_eq (d := ⟨1990, 3, 15⟩) (by decide)
  · simp [ageYears, borrowDays, borrowMonths, daysInMonth]

theorem c8_witness :
    jGet3 (buildCustomerJson crow0 rrow0 mrow0 lrow0 today0 2201123 42)
      "individualCharacteristics" "core" "age" = some (.num 34) ∧
    birthYearInt crow0.date_of_birth = 1990 := by
  have h := c8_age_and_birth_fields crow0 rrow0 mrow0 lrow0 today0 2201123 42
  constructor
  · rw [h.1, show ageYears today0 crow0.date_of_birth = 34 from h.2.2.2.2.2.2]
  · exact h.2.2.2.1 (by decide)

/-- C4 counterexample: a burst of one buffered notification whose payload is
the empty string (exactly what the system itself publishes when the trigger's
join is empty) yields zero handler invocations, because `json.loads('')`
raises before the callback is reached. -/
theorem c4_counterexample :
    handlerCalls (drainAll (fun _ => true) [""]) = 0 ∧
    ([""] : List String).length = 1 ∧
    loads "" = none := ⟨rfl, rfl, rfl⟩

/-- C4 (amended): on a wake with buffered notifications the listener processes
every buffered notification exactly once and empties the buffer before
re-entering the wait; the handler is invoked once per buffered notification
whose payload decodes and whose correlation-id extraction does not raise, so a
burst of N such notifications yields N handler invocations before the next
wait. -/
theorem c4_drain_before_rewait (cb : JValue → Bool) (buf : List String) :
    (wakeCycle cb buf).1 = [] ∧
    (wakeCycle cb buf).2.length = buf.length ∧
    ((∀ pl ∈ buf, ∃ d, loads pl = some d ∧ (extractCustomerId d).isSome = true) →
      handlerCalls (wakeCycle cb buf).2 = buf.length) := by
  refine ⟨rfl, ?_, ?_⟩
  · simp [wakeCycle, drainAll_eq_map]
  · intro hall
    simp only [wakeCycle]
    induction buf with
    | nil => rfl
    | cons p rest ih =>
        obtain ⟨d, hd, hex⟩ := hall p (by simp)
        obtain ⟨cidv, hcid⟩ := Option.isSome_iff_exists.mp hex
        have hproc : processNotification cb p = .handled d (cb d) := by
          simp [processNotification, hd, hcid]
        have hrest := ih (fun q hq => hall q (by simp [hq]))
        simp only [drainAll, handlerCalls, List.countP_cons, hproc] at hrest ⊢
        simp [hrest]

theorem c4_witness :
    (wakeCycle (fun _ => true) [objPayload, objPayload]).1 = [] ∧
    handlerCalls (wakeCycle (fun _ => true) [objPayload, objPayload]).2 = 2 := by
  have h := c4_drain_before_rewait (fun _ => true) [objPayload, objPayload]
  refine ⟨h.1, ?_⟩
  have := h.2.2 (by
    intro pl hpl
    have hpl2 : pl = objPayload := by
      simp only [List.mem_cons, List.not_mem_nil, or_false, or_self] at hpl
      exact hpl
    subst hpl2
    exact ⟨.obj [], rfl, rfl⟩)
  simpa using this

/-- C5: every drained notification is processed inside a `try/except`: an
exception while decoding or inside the handler at position K is caught, and
position K+1 of the same batch is still processed on its own payload,
independent of the outcome at K; the drain loop reaches every buffered
notification (no early termination), and later wake cycles are likewise
unaffected. -/
theorem c5_error_isolated (cb : JValue → Bool) (buf : List String) (k : Nat) :
    (drainAll cb buf).length = buf.length ∧
    (drainAll cb buf)[k + 1]? = (buf[k + 1]?).map (processNotification cb) ∧
    (∀ (batches : List (List String)) (i : Nat),
      (listenerTrace cb batches)[i]? = (batches[i]?).map (drainAll cb)) := by
  refine ⟨?_, ?_, ?_⟩
  · simp [drainAll_eq_map]
  · simp [drainAll_eq_map]
  · intro batches i
    simp [listenerTrace]

/-- C10 counterexample: with payloads `""` then `"{}"` buffered in that order,
the first (and only) handler invocation of the batch receives the document of
the second buffered notification — the K-th handler invocation is not the K-th
buffered notification once an undecodable payload intervenes. -/
theorem c10_counterexample :
    drainAll (fun _ => true) ["", objPayload] =
      [.decodeError, .handled (.obj []) true] ∧
    loads "" = none ∧
    loads objPayload = some (.obj []) ∧
    handledDocs (drainAll (fun _ => true) ["", objPayload]) = [.obj []] :=
  ⟨rfl, rfl, rfl, rfl⟩

/-- C10 (amended): within a drain batch the listener processes notifications in
first-in-first-out arrival order — each iteration pops the queue head, so the
K-th processing outcome belongs to the K-th buffered notification — and the
documents handed to the handler are, in that order, exactly those of the
buffered payloads that decode and pass correlation-id extraction. -/
theorem c10_fifo_order (cb : JValue → Bool) (buf : List String) :
    drainAll cb buf = buf.map (processNotification cb) ∧
    handledDocs (drainAll cb buf) = buf.filterMap (fun pl =>
      match loads pl with
      | some d =>
          match extractCustomerId d with
          | some _ => some d
          | none => none
      | none => none) := by
  refine ⟨drainAll_eq_map cb buf, ?_⟩
  induction buf with
  | nil => rfl
  | cons p rest ih =>
      simp only [drainAll, handledDocs, List.filterMap_cons] at ih ⊢
      rcases hl : loads p with _ | d
      · simp [processNotification, hl, ih]
      · rcases he : extractCustomerId d with _ | cid
        · simp [processNotification, hl, he, ih]
        · simp [processNotification, hl, he, ih]

/-- C1 counterexample: `profileB` collides with the stored `profileA` only on
`loyalty_number_id`, so its fourth INSERT fails; `insert_profile` returns
`False`, yet its customers, retail_preferences and marketing_preferences rows
remain committed (each table now has two rows) — the four inserts are not one
atomic unit on the autocommit connection. -/
theorem c1_counterexample :
    (insert_profile "ts0" today0 profileA emptyDB).1 = true ∧
    (insert_profile "ts1" today0 profileB dbAfterA).1 = false ∧
    (insert_profile "ts1" today0 profileB dbAfterA).2.customers.length = 2 ∧
    (insert_profile "ts1" today0 profileB dbAfterA).2.retail_preferences.length = 2 ∧
    (insert_profile "ts1" today0 profileB dbAfterA).2.marketing_preferences.length = 2 ∧
    (insert_profile "ts1" today0 profileB dbAfterA).2.loyalty_members.length = 1 :=
  ⟨rfl, rfl, rfl, rfl, rfl, rfl⟩

/-- C1 (amended): the four inserts run in fixed order on an autocommit
connection, so each successful statement commits independently: when
`insert_profile` fails after its first statement succeeded, the customer row
stays committed; only the loyalty statement together with its trigger is
atomic — on any failure no loyalty row, no DerivedDocument row and no
notification of this call survives. -/
theorem c1_autocommit_partial_commit (now : String) (today : Date) (p : Profile)
    (s : DBState) (hfail : (insert_profile now today p s).1 = false)
    (hfirst : (insertCustomer now p s).isSome = true) :
    (insert_profile now today p s).2.customers.any
      (fun c => c.customer_id = p.customer_id) = true ∧
    (insert_profile now today p s).2.loyalty_members = s.loyalty_members ∧
    (insert_profile now today p s).2.customer_json_profiles =
      s.customer_json_profiles ∧
    (insert_profile now today p s).2.notifications = s.notifications := by
  obtain ⟨s1, h1⟩ := Option.isSome_iff_exists.mp hfirst
  obtain ⟨crow, hcrow, hs1⟩ := insertCustomer_some h1
  simp only [insert_profile, h1] at hfail ⊢
  rcases h2 : insertRetailPreferences p s1 with _ | s2
  · simp only [h2] at hfail ⊢
    subst hs1
    exact ⟨by simp [hcrow], rfl, rfl, rfl⟩
  · obtain ⟨rrow, hrrow, hs2⟩ := insertRetail_some h2
    simp only [h2] at hfail ⊢
    rcases h3 : insertMarketingPreferences p s2 with _ | s3
    · simp only [h3] at hfail ⊢
      subst hs2
      subst hs1
      exact ⟨by simp [hcrow], rfl, rfl, rfl⟩
    · obtain ⟨mrow, hmrow, hs3⟩ := insertMarketing_some h3
      simp only [h3] at hfail ⊢
      rcases h4 : insertLoyaltyMembers today p s3 with _ | s4
      · simp only [h4] at hfail ⊢
        subst hs3
        subst hs2
        subst hs1
        exact ⟨by simp [hcrow], rfl, rfl, rfl⟩
      · simp only [h4] at hfail
        simp at hfail

theorem c1_witness :
    (insert_profile "ts1" today0 profileB dbAfterA).2.customers.any
      (fun c => c.customer_id = profileB.customer_id) = true ∧
    (insert_profile "ts1" today0 profileB dbAfterA).2.loyalty_members =
      dbAfterA.loyalty_members ∧
    (insert_profile "ts1" today0 profileB dbAfterA).2.customer_json_profiles =
      dbAfterA.customer_json_profiles ∧
    (insert_profile "ts1" today0 profileB dbAfterA).2.notifications =
      dbAfterA.notifications :=
  c1_autocommit_partial_commit "ts1" today0 profileB dbAfterA rfl rfl

/-- C2 counterexample: with `c1`'s customers and retail_preferences rows in
place but its marketing_preferences row missing, the loyalty INSERT succeeds
and the trigger's join yields zero rows — yet one notification IS published,
with empty payload, because `pg_notify` coerces the NULL scalar-subquery result
to the empty string. No DerivedDocument row is written. -/
theorem c2_counterexample :
    ((insertLoyaltyMembers today0 profileA dbPartialA).map
      (fun s => (s.notifications, s.customer_json_profiles.length,
        s.loyalty_members.length))) = some ([""], 0, 1) ∧
    dbPartialA.marketing_preferences = [] ∧
    dbPartialA.customers.length = 1 ∧
    dbPartialA.retail_preferences.length = 1 ∧
    dbPartialA.notifications = [] :=
  ⟨rfl, rfl, rfl, rfl, rfl⟩

/-- C2 (amended): when the inner join for the inserted customer id yields zero
rows (and no stale document row exists for that id), `generate_customer_json`
completes without raising — so the triggering insert succeeds — and writes no
DerivedDocument row, but it still executes `pg_notify`, whose NULL payload is
coerced to the empty string: exactly one notification with empty payload is
published. -/
theorem c2_zero_join_empty_notification (today : Date) (cid : String) (s : DBState)
    (hjoin : s.customers.find? (fun c => c.customer_id = cid) = none ∨
      s.retail_preferences.find? (fun r => r.customer_id = cid) = none ∨
      s.marketing_preferences.find? (fun m => m.customer_id = cid) = none ∨
      s.loyalty_members.find? (fun l => l.customer_id = cid) = none)
    (hstale : s.customer_json_profiles.find? (fun j => j.customer_id = cid) = none) :
    generate_customer_json today cid s =
      some { s with notifications := s.notifications ++ [""] } := by
  unfold generate_customer_json
  split
  · exfalso
    rename_i c r m l hcc hrr hmm hll
    rcases hjoin with h | h | h | h <;> simp_all
  · rw [hstale]

theorem c2_witness :
    generate_customer_json today0 "c1" dbPartialA =
      some { dbPartialA with notifications := dbPartialA.notifications ++ [""] } :=
  c2_zero_join_empty_notification today0 "c1" dbPartialA
    (Or.inr (Or.inr (Or.inl rfl))) rfl

/-- C6: a document published on the channel (as `jsonb::text`) decodes back to
itself; handing the decoded document to the file sink yields the file name
`profile_<customerId>_<ts>.json` (with `ts` the formatted current time) and a
file text that parses back to the document, field for field; and any string
free of quotes, backslashes and control characters — in particular any
non-ASCII text — is written literally, unescaped. -/
theorem c6_roundtrip_file (doc : JValue) (ts cid : String)
    (hid : jGet2 doc "identification" "customerId" = some (.str cid)) :
    loads (jsonbText doc) = some doc ∧
    save_json_to_file doc ts =
      some ("profile_" ++ cid ++ "_" ++ ts ++ ".json", dumps doc) ∧
    loads (dumps doc) = some doc ∧
    (∀ str : String, (∀ ch ∈ str.data,
        ch ≠ quoteChar ∧ ch ≠ backslashChar ∧ 32 ≤ ch.toNat) →
      serStr str = quoteChar :: (str.data ++ [quoteChar])) := by
  refine ⟨loads_jsonbText doc, ?_, loads_dumps doc, ?_⟩
  · cases doc with
    | obj fs =>
        rcases hw : (JValue.obj fs).getField "identification" with _ | w
        · simp [jGet2, hw] at hid
        · have hid2 : w.getField "customerId" = some (.str cid) := by
            simpa [jGet2, hw] using hid
          cases w with
          | obj gs =>
              simp only [save_json_to_file, hw]
              simp only [JValue.getField] at hid2
              rcases hkv : gs.find? (fun kv => kv.1 = "customerId") with _ | kv
              · rw [hkv] at hid2
                cases hid2
              · rw [hkv] at hid2
                simp at hid2
                simp [hkv, hid2, pyStr]
          | null => simp [JValue.getField] at hid2
          | bool b => simp [JValue.getField] at hid2
          | num n => simp [JValue.getField] at hid2
          | str s2 => simp [JValue.getField] at hid2
          | arr xs => simp [JValue.getField] at hid2
    | null => simp [jGet2, JValue.getField] at hid
    | bool b => simp [jGet2, JValue.getField] at hid
    | num n => simp [jGet2, JValue.getField] at hid
    | str s2 => simp [jGet2, JValue.getField] at hid
    | arr xs => simp [jGet2, JValue.getField] at hid
  · intro str hs
    have hflat : ∀ l : List Char,
        (∀ ch ∈ l, ch ≠ quoteChar ∧ ch ≠ backslashChar ∧ 32 ≤ ch.toNat) →
        l.flatMap escChar = l := by
      intro l hl
      induction l with
      | nil => rfl
      | cons a l2 ih =>
          obtain ⟨h1, h2, h3⟩ := hl a (by simp)
          have ha : escChar a = [a] := by
            simp only [escChar, if_neg h1, if_neg h2,
              if_neg (by omega : ¬a.toNat = 8), if_neg (by omega : ¬a.toNat = 9),
              if_neg (by omega : ¬a.toNat = 10), if_neg (by omega : ¬a.toNat = 12),
              if_neg (by omega : ¬a.toNat = 13), if_neg (by omega : ¬a.toNat < 32)]
          simp [List.flatMap_cons, ha, ih (fun c hc => hl c (by simp [hc]))]
    unfold serStr
    rw [hflat str.data hs]

def doc0 : JValue := .obj [("identification", .obj [("customerId", .str "c9")])]

theorem c6_witness :
    loads (jsonbText doc0) = some doc0 ∧
    save_json_to_file doc0 "20240601_120000" =
      some ("profile_" ++ "c9" ++ "_" ++ "20240601_120000" ++ ".json", dumps doc0) ∧
    loads (dumps doc0) = some doc0 ∧
    (∀ str : String, (∀ ch ∈ str.data,
        ch ≠ quoteChar ∧ ch ≠ backslashChar ∧ 32 ≤ ch.toNat) →
      serStr str = quoteChar :: (str.data ++ [quoteChar])) :=
  c6_roundtrip_file doc0 "20240601_120000" "c9" rfl

/-- C9: a batch run never aborts on a failed profile: every profile of the
batch is attempted exactly once (one success flag per profile), profile `i` is
attempted against the state left by the first `i` profiles whatever their
outcomes, and a failure — a caught `psycopg2.Error` turned into a `False`
return, e.g. a constraint violation or malformed field — makes the loop log
and continue with the next profile. -/
theorem c9_batch_continues (now : String) (today : Date) (ps : List Profile)
    (s : DBState) :
    ((generate_and_store_profiles now today ps s).2).length = ps.length ∧
    (∀ i : Nat, ((generate_and_store_profiles now today ps s).2)[i]? =
      (ps[i]?).map (fun p => (insert_profile now today p
        ((generate_and_store_profiles now today (ps.take i) s).1)).1)) ∧
    (∀ p : Profile, (insert_profile now today p s).1 = false →
      (generate_and_store_profiles now today (p :: ps) s).2 =
        false :: (generate_and_store_profiles now today ps
          ((insert_profile now today p s).2)).2) := by
  refine ⟨?_, ?_, ?_⟩
  · induction ps generalizing s with
    | nil => rfl
    | cons p rest ih => simp [generate_and_store_profiles, ih]
  · intro i
    induction ps generalizing s i with
    | nil => simp [generate_and_store_profiles]
    | cons p rest ih =>
        cases i with
        | zero => simp [generate_and_store_profiles]
        | succ i2 =>
            simp only [generate_and_store_profiles, List.getElem?_cons_succ,
              List.take_succ_cons]
            exact ih _ _
  · intro p hp
    simp [generate_and_store_profiles, hp]

/-- A profile whose `date_of_birth` is not a valid DATE literal: its first
INSERT raises, which `insert_profile` catches, returning `False`. -/
def profileBad : Profile :=
  { profileA with
    customer_id := "c3"
    email := "bad.row@example.com"
    date_of_birth := "not-a-date"
    loyalty_number_id := "993" }

theorem c9_witness :
    (generate_and_store_profiles "ts0" today0 [profileBad, profileA] emptyDB).2 =
      false :: (generate_and_store_profiles "ts0" today0 [profileA]
        ((insert_profile "ts0" today0 profileBad emptyDB).2)).2 :=
  (c9_batch_continues "ts0" today0 [profileA] emptyDB).2.2 profileBad rfl

theorem insertLoyalty_some {today : Date} {p : Profile} {s s4 : DBState}
    (h : insertLoyaltyMembers today p s = some s4) :
    ∃ lrow : LoyaltyRow, lrow.customer_id = p.customer_id ∧
      generate_customer_json today p.customer_id
        { s with loyalty_members := lrow :: s.loyalty_members } = some s4 := by
  simp only [insertLoyaltyMembers] at h
  split at h
  · cases h
  · split at h
    · split at h
      · cases h
      · split at h
        · cases h
        · split at h
          · cases h
          · exact ⟨_, rfl, h⟩
    · cases h

theorem insert_profile_true {now : String} {today : Date} {p : Profile} {s : DBState}
    (h : (insert_profile now today p s).1 = true) :
    ∃ s1 s2 s3 s4, insertCustomer now p s = some s1 ∧
      insertRetailPreferences p s1 = some s2 ∧
      insertMarketingPreferences p s2 = some s3 ∧
      insertLoyaltyMembers today p s3 = some s4 ∧
      (insert_profile now today p s).2 = s4 := by
  unfold insert_profile at h
  rcases h1 : insertCustomer now p s with _ | s1
  · rw [h1] at h
    simp at h
  rw [h1] at h
  simp only [] at h
  rcases h2 : insertRetailPreferences p s1 with _ | s2
  · rw [h2] at h
    simp at h
  rw [h2] at h
  simp only [] at h
  rcases h3 : insertMarketingPreferences p s2 with _ | s3
  · rw [h3] at h
    simp at h
  rw [h3] at h
  simp only [] at h
  rcases h4 : insertLoyaltyMembers today p s3 with _ | s4
  · rw [h4] at h
    simp at h
  exact ⟨s1, s2, s3, s4, rfl, h2, h3, h4, by simp [insert_profile, h1, h2, h3, h4]⟩

/-- C3: whenever `insert_profile` reports success for a profile, exactly one
DerivedDocument row keyed by the inserted `customer_id` is produced, exactly one
notification is published on the channel — the stored document re-read as
`jsonb::text` — the payload decodes back to the stored document, and that
document's `identification.customerId` equals the inserted `customer_id`. -/
theorem c3_document_and_notification (now : String) (today : Date) (p : Profile)
    (s : DBState) (hok : (insert_profile now today p s).1 = true) :
    ∃ doc : JValue,
      ((insert_profile now today p s).2.customer_json_profiles.countP
        (fun j => j.customer_id = p.customer_id)) = 1 ∧
      (((insert_profile now today p s).2.customer_json_profiles.find?
        (fun j => j.customer_id = p.customer_id)).map (fun j => j.json_data)) =
        some doc ∧
      (insert_profile now today p s).2.notifications =
        s.notifications ++ [jsonbText doc] ∧
      loads (jsonbText doc) = some doc ∧
      jGet2 doc "identification" "customerId" = some (.str p.customer_id) := by
  obtain ⟨s1, s2, s3, s4, h1, h2, h3, h4, hres⟩ := insert_profile_true hok
  obtain ⟨crow, hcrow, hs1⟩ := insertCustomer_some h1
  obtain ⟨rrow, hrrow, hs2⟩ := insertRetail_some h2
  obtain ⟨mrow, hmrow, hs3⟩ := insertMarketing_some h3
  obtain ⟨lrow, hlrow, htr⟩ := insertLoyalty_some h4
  rw [hres]
  subst hs3
  subst hs2
  subst hs1
  simp only [generate_customer_json] at htr
  simp only [List.find?_cons, hcrow, hrrow, hmrow, hlrow, eq_self_iff_true,
    decide_True] at htr
  rcases hlid : parseBigInt lrow.loyalty_number_id with _ | lid
  · rw [hlid] at htr
    simp at htr
  rw [hlid] at htr
  rcases hshoe : parseBigInt rrow.shoe_size with _ | shoe
  · rw [hshoe] at htr
    simp at htr
  rw [hshoe] at htr
  simp only [] at htr
  split at htr
  · cases htr
  rename_i hjson
  have hs4 := (Option.some.inj htr).symm
  subst hs4
  refine ⟨buildCustomerJson crow rrow mrow lrow today lid shoe, ?_, ?_, ?_,
    loads_jsonbText _, ?_⟩
  · have hjf : (s.customer_json_profiles.any fun j =>
        decide (j.customer_id = p.customer_id)) = false := by
      simpa using hjson
    have h0 : s.customer_json_profiles.countP
        (fun j => decide (j.customer_id = p.customer_id)) = 0 := by
      rw [List.countP_eq_zero]
      intro a ha
      have := List.any_eq_false.mp hjf a ha
      simpa using this
    simp [List.countP_cons, h0]
  · simp [List.find?_cons]
  · simp
  · rw [← hcrow]
    rfl

theorem c3_witness :
    ∃ doc : JValue,
      ((insert_profile "ts0" today0 profileA emptyDB).2.customer_json_profiles.countP
        (fun j => j.customer_id = profileA.customer_id)) = 1 ∧
      (((insert_profile "ts0" today0 profileA emptyDB).2.customer_json_profiles.find?
        (fun j => j.customer_id = profileA.customer_id)).map (fun j => j.json_data)) =
        some doc ∧
      (insert_profile "ts0" today0 profileA emptyDB).2.notifications =
        emptyDB.notifications ++ [jsonbText doc] ∧
      loads (jsonbText doc) = some doc ∧
      jGet2 doc "identification" "customerId" = some (.str profileA.customer_id) :=
  c3_document_and_notification "ts0" today0 profileA emptyDB rfl

end RetailSim
